import Mathlib

/-!
Verification of the binary acquisition and execution subsystem of
`dirvine/saorsa-cli` (files `src/cli/src/downloader.rs`, `config.rs`,
`runner.rs`, `main.rs`), shallowly embedded in Lean.

Bytes are modelled as `Nat` below 256, files as byte lists, the file
system as an association list from path strings to contents, and the
network as an explicit oracle fed to the orchestration function.
-/

namespace Saorsa

/-- A byte sequence: the contents of a file. -/
abbrev Bytes := List Nat

/-- The file system: an association list from absolute path strings to file
contents.  Only the paths the subsystem touches are tracked. -/
abbrev FS := List (String × Bytes)

/-- Look up the contents of a path. -/
def fsGet : FS → String → Option Bytes
  | [], _ => none
  | (q, v) :: rest, p => if q = p then some v else fsGet rest p

/-- Delete a path (models `fs::remove_file`; removing a missing path is a
no-op, as the source discards the error with `.ok()`). -/
def fsRemove : FS → String → FS
  | [], _ => []
  | (q, v) :: rest, p => if q = p then fsRemove rest p else (q, v) :: fsRemove rest p

/-- Truncate-create / overwrite a path with the given contents
(models `File::create` followed by writes). -/
def fsSet (fs : FS) (p : String) (v : Bytes) : FS :=
  (p, v) :: fsRemove fs p

/-- `Path::exists` on the modelled file system. -/
def fsExists (fs : FS) (p : String) : Bool :=
  (fsGet fs p).isSome

/-- `PathBuf::join` for the paths the subsystem builds. -/
def pathJoin (a b : String) : String :=
  a ++ "/" ++ b

/-! ### SHA-256 (the `sha2` crate's `Sha256` as used by `verify_checksum`)

A direct functional implementation of FIPS 180-4 SHA-256 over byte lists;
32-bit machine words are `Nat` reduced modulo `2 ^ 32` at each step. -/

/-- Reduce to a 32-bit word. -/
def w32 (x : Nat) : Nat := x % 4294967296

/-- 32-bit right rotation. -/
def rotr32 (n x : Nat) : Nat :=
  w32 ((x >>> n) ||| (x <<< (32 - n)))

/-- 32-bit bitwise complement. -/
def not32 (x : Nat) : Nat := x ^^^ 4294967295

/-- SHA-256 `Ch` function. -/
def shaCh (x y z : Nat) : Nat := (x &&& y) ^^^ (not32 x &&& z)

/-- SHA-256 `Maj` function. -/
def shaMaj (x y z : Nat) : Nat := (x &&& y) ^^^ (x &&& z) ^^^ (y &&& z)

/-- SHA-256 big sigma 0. -/
def bigSigma0 (x : Nat) : Nat := rotr32 2 x ^^^ rotr32 13 x ^^^ rotr32 22 x

/-- SHA-256 big sigma 1. -/
def bigSigma1 (x : Nat) : Nat := rotr32 6 x ^^^ rotr32 11 x ^^^ rotr32 25 x

/-- SHA-256 small sigma 0. -/
def smallSigma0 (x : Nat) : Nat := rotr32 7 x ^^^ rotr32 18 x ^^^ (x >>> 3)

/-- SHA-256 small sigma 1. -/
def smallSigma1 (x : Nat) : Nat := rotr32 17 x ^^^ rotr32 19 x ^^^ (x >>> 10)

/-- The 64 SHA-256 round constants of FIPS 180-4, as decimal `Nat`s. -/
def shaK : List Nat :=
  [1116352408, 1899447441, 3049323471, 3921009573, 961987163, 1508970993,
   2453635748, 2870763221, 3624381080, 310598401, 607225278, 1426881987,
   1925078388, 2162078206, 2614888103, 3248222580, 3835390401, 4022224774,
   264347078, 604807628, 770255983, 1249150122, 1555081692, 1996064986,
   2554220882, 2821834349, 2952996808, 3210313671, 3336571891, 3584528711,
   113926993, 338241895, 666307205, 773529912, 1294757372, 1396182291,
   1695183700, 1986661051, 2177026350, 2456956037, 2730485921, 2820302411,
   3259730800, 3345764771, 3516065817, 3600352804, 4094571909, 275423344,
   430227734, 506948616, 659060556, 883997877, 958139571, 1322822218,
   1537002063, 1747873779, 1955562222, 2024104815, 2227730452, 2361852424,
   2428436474, 2756734187, 3204031479, 3329325298]

/-- The SHA-256 initial hash value of FIPS 180-4, as decimal `Nat`s. -/
def shaH0 : List Nat :=
  [1779033703, 3144134277, 1013904242, 2773480762,
   1359893119, 2600822924, 528734635, 1541459225]

/-- Append the next word of the message schedule. -/
def scheduleStep (ws : List Nat) : List Nat :=
  let i := ws.length
  ws ++ [w32 (ws.getD (i - 16) 0 + smallSigma0 (ws.getD (i - 15) 0) +
              ws.getD (i - 7) 0 + smallSigma1 (ws.getD (i - 2) 0))]

/-- One SHA-256 round applied to the working variables `[a,b,c,d,e,f,g,h]`. -/
def shaRound (st : List Nat) (kw : Nat × Nat) : List Nat :=
  match st with
  | [a, b, c, d, e, f, g, h] =>
    let t1 := w32 (h + bigSigma1 e + shaCh e f g + kw.1 + kw.2)
    let t2 := w32 (bigSigma0 a + shaMaj a b c)
    [w32 (t1 + t2), a, b, c, w32 (d + t1), e, f, g]
  | other => other

/-- Turn a 64-byte block into sixteen big-endian 32-bit words. -/
def bytesToWords : Bytes → List Nat
  | b0 :: b1 :: b2 :: b3 :: rest =>
      (((b0 * 256 + b1) * 256 + b2) * 256 + b3) :: bytesToWords rest
  | _ => []

/-- Compress one 64-byte block into the running hash value. -/
def processBlock (H : List Nat) (block : Bytes) : List Nat :=
  let w16 := bytesToWords block
  let ws := (List.range 48).foldl (fun a _ => scheduleStep a) w16
  let st := (shaK.zip ws).foldl shaRound H
  (H.zip st).map (fun xy => w32 (xy.1 + xy.2))

/-- The eight big-endian bytes of a 64-bit length field. -/
def be64 (n : Nat) : Bytes :=
  [n >>> 56 % 256, n >>> 48 % 256, n >>> 40 % 256, n >>> 32 % 256,
   n >>> 24 % 256, n >>> 16 % 256, n >>> 8 % 256, n % 256]

/-- FIPS 180-4 padding: a `0x80` byte, zeros to 56 mod 64, then the
bit length as a 64-bit big-endian integer. -/
def padMessage (msg : Bytes) : Bytes :=
  let L := msg.length
  msg ++ [128] ++ List.replicate ((119 - L % 64) % 64) 0 ++ be64 (8 * L)

/-- Split a byte list into 64-byte blocks, fuelled so that reduction stays
definitional (the fuel is an upper bound on the number of blocks). -/
def toBlocksFuel : Nat → Bytes → List Bytes
  | 0, _ => []
  | _ + 1, [] => []
  | n + 1, l => l.take 64 :: toBlocksFuel n (l.drop 64)

/-- Split a byte list into 64-byte blocks. -/
def toBlocks (l : Bytes) : List Bytes :=
  toBlocksFuel l.length l

/-- The four big-endian bytes of a 32-bit word. -/
def wordBytes (w : Nat) : Bytes :=
  [w >>> 24 % 256, w >>> 16 % 256, w >>> 8 % 256, w % 256]

/-- SHA-256 of a byte sequence, as a 32-byte digest. -/
def sha256 (msg : Bytes) : Bytes :=
  (((toBlocks (padMessage msg)).foldl processBlock shaH0).map wordBytes).flatten

/-- The sixteen lowercase hexadecimal digit characters, in value order
(the alphabet used by `hex::encode`). -/
def hexChars : List Char :=
  "0123456789abcdef".data

/-- A nibble as a lowercase hexadecimal character. -/
def hexDigit (n : Nat) : Char := hexChars.getD n '0'

/-- `hex::encode`: the lowercase hexadecimal rendering of a byte sequence. -/
def hexEncode (bytes : Bytes) : String :=
  String.mk (bytes.foldr (fun b acc => hexDigit (b / 16) :: hexDigit (b % 16) :: acc) [])

/-! ### Configuration (`src/cli/src/config.rs`) -/

/-- `GitHubConfig` from `config.rs`. -/
structure GitHubConfig where
  owner : String
  repo : String
  check_prerelease : Bool
deriving DecidableEq

/-- `CacheConfig` from `config.rs`; `directory` is the optional cache-root
override (`Option<PathBuf>`). -/
structure CacheConfig where
  directory : Option String
  auto_clean : Bool
  max_versions : Nat
deriving DecidableEq

/-- `BehaviorConfig` from `config.rs`. -/
structure BehaviorConfig where
  auto_update_check : Bool
  use_system_binaries : Bool
  prefer_local_build : Bool
deriving DecidableEq

/-- `Config` from `config.rs`. -/
structure Config where
  github : GitHubConfig
  cache : CacheConfig
  behavior : BehaviorConfig
deriving DecidableEq

/-- The ambient directories the `dirs` crate reports (`dirs::cache_dir()`
returns `Option<PathBuf>`). -/
structure DirsEnv where
  cacheDir : Option String
deriving DecidableEq

/-- `Config::cache_dir`: the override `cache.directory` if set, else
`dirs::cache_dir()/saorsa-cli/binaries`; fails when the platform reports
no cache directory. -/
def Config.cache_dir (c : Config) (env : DirsEnv) : Except Unit String :=
  match c.cache.directory with
  | some dir => .ok dir
  | none =>
    match env.cacheDir with
    | some cd => .ok (pathJoin (pathJoin cd "saorsa-cli") "binaries")
    | none => .error ()

/-- `Config::update_from_cli`: the two CLI flags may switch
`auto_update_check` off and `use_system_binaries` on. -/
def Config.update_from_cli (c : Config) (no_update_check use_system : Bool) : Config :=
  let c1 :=
    if no_update_check then
      { c with behavior := { c.behavior with auto_update_check := false } }
    else c
  if use_system then
    { c1 with behavior := { c1.behavior with use_system_binaries := true } }
  else c1

/-! ### Platform

Modelled from the spec: the module `platform` is declared in
`src/cli/src/main.rs` but `src/cli/src/platform.rs` is not present under
`src/`; §4.1 of the spec defines the descriptor — `binaryExtension()` is
empty on POSIX-like systems and the executable suffix on the Windows
family, `archiveExtension()` is `.tar.gz` on POSIX-like systems and
`.zip` on the Windows family, and `assetName(toolName)` composes
`<toolName>-<os>-<arch><archiveExtension>`. -/
structure Platform where
  os : String
  arch : String
deriving DecidableEq

/-- Modelled from the spec: `binaryExtension()` of §4.1 — empty on
POSIX-like systems, `.exe` on the Windows family. -/
def Platform.binary_extension (p : Platform) : String :=
  if p.os = "windows" then ".exe" else ""

/-- Modelled from the spec: `archiveExtension()` of §4.1 — `.zip` on the
Windows family, `.tar.gz` on POSIX-like systems. -/
def Platform.archive_extension (p : Platform) : String :=
  if p.os = "windows" then ".zip" else ".tar.gz"

/-- Modelled from the spec: `assetName(toolName)` of §4.1 —
`<toolName>-<os>-<arch><archiveExtension>`. -/
def Platform.asset_name (p : Platform) (toolName : String) : String :=
  toolName ++ "-" ++ p.os ++ "-" ++ p.arch ++ p.archive_extension

/-! ### Process launcher (`src/cli/src/runner.rs`) -/

/-- `RunnerError` from `runner.rs`. -/
inductive RunnerError where
  | BinaryNotFound (path : String)
  | ExecutionFailed (msg : String)
  | NonZeroExit (code : Int)
deriving DecidableEq

/-- `std::process::ExitStatus`: `code` is `none` when the child was
terminated by a signal; `success()` holds exactly for exit code zero. -/
structure ExitStatus where
  code : Option Int
deriving DecidableEq

/-- `ExitStatus::success`. -/
def ExitStatus.success (s : ExitStatus) : Bool :=
  s.code = some 0

deriving instance DecidableEq for Except

/-- What a `run_interactive` call produced: its `Result` value and whether
the non-zero-exit warning (`tracing::warn!`) was emitted. -/
structure RunResult where
  result : Except RunnerError Unit
  warned : Bool
deriving DecidableEq

/-- `BinaryRunner::run_interactive`, embedded over the existence of the
binary path and the outcome of `Command::status()` (`spawn` is the
`io::Result` of launching and waiting on the child: an exit status when
the child ran to completion, or a spawn failure). -/
def run_interactive (pathExists : Bool) (path : String) (args : List String)
    (spawn : Except Unit ExitStatus) : RunResult :=
  if !pathExists then
    { result := .error (.BinaryNotFound path), warned := false }
  else
    match spawn with
    | .error _ =>
      { result := .error (.ExecutionFailed ("Failed to execute binary: " ++ path)),
        warned := false }
    | .ok status =>
      let warned :=
        if !status.success then
          match status.code with
          | some c => c != 0 && c != 130
          | none => false
        else false
      { result := .ok (), warned := warned }

/-! ### Downloader (`src/cli/src/downloader.rs`) -/

/-- `DownloadError` from `downloader.rs`. -/
inductive DownloadError where
  | Network
  | Io
  | NoMatchingAsset
  | NoReleases
  | ChecksumMismatch
deriving DecidableEq

/-- `GitHubAsset` from `downloader.rs`. -/
structure GitHubAsset where
  name : String
  browser_download_url : String
  size : Nat
deriving DecidableEq

/-- `GitHubRelease` from `downloader.rs`. -/
structure GitHubRelease where
  tag_name : String
  name : Option String
  assets : List GitHubAsset
  published_at : String
deriving DecidableEq

/-- The failures `extract_binary` raises through `anyhow`: the
member-not-found bail, the unsupported-format bail, and the three I/O
failure sites — opening the archive (`File::open` / `ZipArchive::new`),
reading an entry header (`entry?` / `by_index(i)?`), and copying the
matched member (`File::create` / `io::copy`).  Only the last touches the
destination path. -/
inductive ExtractError where
  | MemberNotFound
  | UnsupportedArchiveFormat
  | OpenIo
  | ReadIo
  | CopyIo
deriving DecidableEq

/-- The error of a whole acquisition (`download_binary` returns
`anyhow::Result`, mixing `DownloadError` values with extraction bails). -/
inductive AcqError where
  | download (e : DownloadError)
  | extract (e : ExtractError)
deriving DecidableEq

/-- `Downloader` from `downloader.rs` (the HTTP client handle carries no
state the claims depend on and is omitted). -/
structure Downloader where
  repo_owner : String
  repo_name : String
  cache_dir : String
deriving DecidableEq

/-- `Downloader::new`: the cache directory is always
`dirs::cache_dir()/saorsa-cli/binaries`; fails when the platform reports
no cache directory.  The settings' `cache.directory` override is not
consulted. -/
def Downloader.new (repo_owner repo_name : String) (env : DirsEnv) :
    Except Unit Downloader :=
  match env.cacheDir with
  | none => .error ()
  | some cd =>
    .ok { repo_owner := repo_owner, repo_name := repo_name,
          cache_dir := pathJoin (pathJoin cd "saorsa-cli") "binaries" }

/-- `Downloader::binary_path`: `<cache_dir>/<binary_name><binary_extension>`. -/
def Downloader.binary_path (d : Downloader) (binary_name : String) (p : Platform) :
    String :=
  pathJoin d.cache_dir (binary_name ++ p.binary_extension)

/-- Asset resolution (`download_binary` lines 131–135): the first asset in
the release whose `name` equals `platform.asset_name(binary_name)`, else
`NoMatchingAsset`. -/
def resolveAsset (release : GitHubRelease) (binary_name : String) (p : Platform) :
    Except DownloadError GitHubAsset :=
  match release.assets.find? (fun a => a.name == p.asset_name binary_name) with
  | some a => .ok a
  | none => .error .NoMatchingAsset

/-- An archive member as the extraction loops see it: its path inside the
archive, and its contents as a list of reads each of which may fail
(a failing read models a corrupt or truncated archive). -/
structure ArchiveEntry where
  path : String
  content : List (Except Unit Bytes)

/-- Split a character list at `/` separators. -/
def splitSlash : List Char → List (List Char)
  | [] => [[]]
  | c :: rest =>
    match splitSlash rest with
    | [] => [[c]]
    | w :: ws => if c = '/' then [] :: w :: ws else (c :: w) :: ws

/-- `Path::file_name` of a slash-separated path: the last meaningful
component, or none for empty and `..`-terminated paths. -/
def fileName (p : String) : Option String :=
  match (((splitSlash p.data).map String.mk).filter
      (fun c => c != "" && c != ".")).getLast? with
  | none => none
  | some last => if last = ".." then none else some last

/-- Stream a list of reads into an accumulated byte list (the write loops
of `io::copy` and of the download): `.ok` carries the full contents,
`.error` the bytes accumulated before the failing read. -/
def drainChunks : List (Except Unit Bytes) → Bytes → Except Bytes Bytes
  | [], acc => .ok acc
  | .error _ :: _, acc => .error acc
  | .ok c :: rest, acc => drainChunks rest (acc ++ c)

/-- Truncate-create `dest` (`File::create`) and `io::copy` the member's
contents into it; a failed read leaves the partially-written file at
`dest`. -/
def copyEntryTo (content : List (Except Unit Bytes)) (dest : String) (fs : FS) :
    Except ExtractError Unit × FS :=
  match drainChunks content [] with
  | .ok full => (.ok (), fsSet fs dest full)
  | .error written => (.error .CopyIo, fsSet fs dest written)

/-- The tar.gz walk of `extract_binary`: entries are read in order (a
failed header read aborts); the first entry whose base filename equals
`binary_name` is copied to `binary_path` and the walk stops; exhausting
the stream is the member-not-found bail. -/
def extractTar (entries : List (Except Unit ArchiveEntry)) (binary_name : String)
    (binary_path : String) (fs : FS) : Except ExtractError Unit × FS :=
  match entries with
  | [] => (.error .MemberNotFound, fs)
  | .error _ :: _ => (.error .ReadIo, fs)
  | .ok e :: rest =>
    if fileName e.path = some binary_name then
      copyEntryTo e.content binary_path fs
    else
      extractTar rest binary_name binary_path fs

/-- The zip walk of `extract_binary`: each indexed entry's base filename
is compared against `binary_name` with the platform binary suffix
appended and against plain `binary_name`; the first match is copied to
`binary_path`. -/
def extractZip (entries : List (Except Unit ArchiveEntry))
    (binary_name binary_name_with_ext : String) (binary_path : String) (fs : FS) :
    Except ExtractError Unit × FS :=
  match entries with
  | [] => (.error .MemberNotFound, fs)
  | .error _ :: _ => (.error .ReadIo, fs)
  | .ok e :: rest =>
    match fileName e.path with
    | some n =>
      if n = binary_name_with_ext ∨ n = binary_name then
        copyEntryTo e.content binary_path fs
      else
        extractZip rest binary_name binary_name_with_ext binary_path fs
    | none => extractZip rest binary_name binary_name_with_ext binary_path fs

/-- The body of `extract_binary`: dispatch on the archive-extension tag
exactly as the source's `match` does — `.tar.gz` and `.zip` open the
archive file and walk it, anything else is the unsupported-format bail. -/
def extractCore (ext archive_path binary_name binary_name_with_ext binary_path : String)
    (entries : List (Except Unit ArchiveEntry)) (fs : FS) :
    Except ExtractError Unit × FS :=
  if ext = ".tar.gz" then
    if fsExists fs archive_path then extractTar entries binary_name binary_path fs
    else (.error .OpenIo, fs)
  else if ext = ".zip" then
    if fsExists fs archive_path then
      extractZip entries binary_name binary_name_with_ext binary_path fs
    else (.error .OpenIo, fs)
  else (.error .UnsupportedArchiveFormat, fs)

/-- `Downloader::extract_binary`: the destination is the final cache path
`binary_path(binary_name, platform)` — written directly, with no
temporary name or rename; `entries` is the decoded member list of the
archive at `archive_path`. -/
def Downloader.extract_binary (d : Downloader) (archive_path binary_name : String)
    (p : Platform) (entries : List (Except Unit ArchiveEntry)) (fs : FS) :
    Except ExtractError Unit × FS :=
  extractCore p.archive_extension archive_path binary_name
    (binary_name ++ p.binary_extension) (d.binary_path binary_name p) entries fs

/-- The outcome of one HTTP `GET` against the release host: a transport
or body-decoding failure (a `reqwest::Error`, surfaced through `?`), a
response with a non-success status, or a successfully parsed value. -/
inductive HttpOutcome (α : Type) where
  | sendFail
  | notSuccess
  | ok (a : α)

/-- `Downloader::get_latest_release`: query the `releases/latest`
endpoint; on a non-success status fall back to listing all releases and
taking the first, failing with `NoReleases` when that list is empty.
Also returns how many network requests were issued. -/
def get_latest_release (latest : HttpOutcome GitHubRelease)
    (listResponse : Except Unit (List GitHubRelease)) :
    Except DownloadError GitHubRelease × Nat :=
  match latest with
  | .sendFail => (.error .Network, 1)
  | .ok r => (.ok r, 1)
  | .notSuccess =>
    match listResponse with
    | .error _ => (.error .Network, 2)
    | .ok [] => (.error .NoReleases, 2)
    | .ok (r :: _) => (.ok r, 2)

/-- The transport-level outcome of the asset `GET`: the optional declared
content length (it only drives the progress bar) and the body as a list
of chunk reads, each of which may fail mid-transfer. -/
structure AssetResponse where
  contentLength : Option Nat
  chunks : List (Except Unit Bytes)

/-- The network and archive-decoder oracle for one acquisition: what the
two release-host endpoints return, what the asset `GET` returns, and the
member list the archive decoder yields for the downloaded archive. -/
structure AcqEnv where
  latest : HttpOutcome GitHubRelease
  listResponse : Except Unit (List GitHubRelease)
  assetResponse : Except Unit AssetResponse
  archiveEntries : List (Except Unit ArchiveEntry)

/-- `Downloader::download_asset`: create `<cache_dir>/<asset.name>` and
stream the response body into it chunk by chunk; a mid-stream failure
leaves the partially-written archive file behind.  One network request. -/
def Downloader.download_asset (d : Downloader) (asset : GitHubAsset)
    (resp : Except Unit AssetResponse) (fs : FS) :
    Except DownloadError String × FS :=
  let archive_path := pathJoin d.cache_dir asset.name
  match resp with
  | .error _ => (.error .Network, fs)
  | .ok r =>
    match drainChunks r.chunks [] with
    | .ok full => (.ok archive_path, fsSet fs archive_path full)
    | .error written => (.error .Network, fsSet fs archive_path written)

/-- The outcome of one `download_binary` call: its `Result`, the file
system afterwards, and how many network requests were issued. -/
structure DlOutcome where
  result : Except AcqError String
  fs : FS
  netRequests : Nat

/-- `Downloader::download_binary`: return the cache path at once when it
exists and `force` is off; otherwise resolve the latest release, resolve
the matching asset, download the archive, extract the member, remove the
archive (only reached on extraction success, since `?` propagates the
extraction error first), and return the cache path. -/
def Downloader.download_binary (d : Downloader) (binary_name : String) (p : Platform)
    (force : Bool) (fs : FS) (env : AcqEnv) : DlOutcome :=
  let binary_path := d.binary_path binary_name p
  if fsExists fs binary_path && !force then
    { result := .ok binary_path, fs := fs, netRequests := 0 }
  else
    match get_latest_release env.latest env.listResponse with
    | (.error e, n) => { result := .error (.download e), fs := fs, netRequests := n }
    | (.ok release, n) =>
      match resolveAsset release binary_name p with
      | .error e => { result := .error (.download e), fs := fs, netRequests := n }
      | .ok asset =>
        match d.download_asset asset env.assetResponse fs with
        | (.error e, fs1) =>
          { result := .error (.download e), fs := fs1, netRequests := n + 1 }
        | (.ok archive_path, fs1) =>
          match d.extract_binary archive_path binary_name p env.archiveEntries fs1 with
          | (.error e, fs2) =>
            { result := .error (.extract e), fs := fs2, netRequests := n + 1 }
          | (.ok _, fs2) =>
            { result := .ok binary_path, fs := fsRemove fs2 archive_path,
              netRequests := n + 1 }

/-- `Downloader::verify_checksum`: open the file, SHA-256 its whole
contents, hex-encode lowercase, and compare to `expected` with `==`
(case-sensitive string equality). -/
def verify_checksum (fs : FS) (file_path expected : String) : Except Unit Bool :=
  match fsGet fs file_path with
  | none => .error ()
  | some bytes => .ok (hexEncode (sha256 bytes) == expected)

/-- An archive element the tar walk passes over: a readable entry whose
base filename is not the member name. -/
def tarSkip (binary_name : String) : Except Unit ArchiveEntry → Bool
  | .ok a => fileName a.path != some binary_name
  | .error _ => false

/-- An archive element the zip walk passes over: a readable entry whose
base filename matches neither the member name with the binary suffix nor
the plain member name. -/
def zipSkip (binary_name binary_name_with_ext : String) :
    Except Unit ArchiveEntry → Bool
  | .ok a =>
    match fileName a.path with
    | some n => !(n == binary_name_with_ext || n == binary_name)
    | none => true
  | .error _ => false

/-! ### Concrete sample data used by witnesses and counterexamples -/

/-- A concrete POSIX platform. -/
def linuxPlatform : Platform := { os := "linux", arch := "x86_64" }

/-- A concrete downloader whose cache root is `/cache`. -/
def sampleDownloader : Downloader :=
  { repo_owner := "dirvine", repo_name := "saorsa-cli", cache_dir := "/cache" }

/-- The released asset matching `sb` on `linuxPlatform`. -/
def sampleAsset : GitHubAsset :=
  { name := "sb-linux-x86_64.tar.gz",
    browser_download_url := "https://example.com/sb-linux-x86_64.tar.gz",
    size := 3 }

/-- A release carrying `sampleAsset`. -/
def sampleRelease : GitHubRelease :=
  { tag_name := "v1.2.0", name := some "v1.2.0", assets := [sampleAsset],
    published_at := "2025-01-01T00:00:00Z" }

/-- A fully successful acquisition environment: the archive downloads as
bytes `[1, 2, 3]` and decodes to one member `sb` with contents
`[7, 8, 9]`. -/
def sampleEnv : AcqEnv :=
  { latest := .ok sampleRelease,
    listResponse := .ok [sampleRelease],
    assetResponse := .ok { contentLength := some 3, chunks := [.ok [1, 2, 3]] },
    archiveEntries := [.ok { path := "sb", content := [.ok [7, 8, 9]] }] }

/-- Like `sampleEnv` but the copy of the matched member fails on its
first read (a corrupt archive): extraction truncates the destination and
then aborts. -/
def corruptCopyEnv : AcqEnv :=
  { latest := .ok sampleRelease,
    listResponse := .ok [sampleRelease],
    assetResponse := .ok { contentLength := some 3, chunks := [.ok [1, 2, 3]] },
    archiveEntries := [.ok { path := "sb", content := [.error ()] }] }

/-- Like `sampleEnv` but the very first entry header of the archive is
unreadable (a corrupt archive): extraction aborts before looking at any
member. -/
def corruptHeaderEnv : AcqEnv :=
  { latest := .ok sampleRelease,
    listResponse := .ok [sampleRelease],
    assetResponse := .ok { contentLength := some 3, chunks := [.ok [1, 2, 3]] },
    archiveEntries := [.error ()] }

/-- Like `sampleEnv` but the archive contains no member named `sb`. -/
def missingMemberEnv : AcqEnv :=
  { latest := .ok sampleRelease,
    listResponse := .ok [sampleRelease],
    assetResponse := .ok { contentLength := some 3, chunks := [.ok [1, 2, 3]] },
    archiveEntries := [.ok { path := "other", content := [.ok [5]] }] }

/-- A file system whose cache already holds a good `sb` binary. -/
def cachedFs : FS := [("/cache/sb", [9, 9, 9])]

/-- A configuration with the cache-root override set to `/custom`. -/
def overrideConfig : Config :=
  { github := { owner := "dirvine", repo := "saorsa-cli", check_prerelease := false },
    cache := { directory := some "/custom", auto_clean := false, max_versions := 3 },
    behavior := { auto_update_check := true, use_system_binaries := false,
                  prefer_local_build := false } }

/-- A host whose default cache directory is `/home/user/.cache`. -/
def sampleDirs : DirsEnv := { cacheDir := some "/home/user/.cache" }

/-- Whether an acquisition result is the `ChecksumMismatch` failure. -/
def isChecksumMismatch : Except AcqError String → Bool
  | .error (.download .ChecksumMismatch) => true
  | _ => false

/-- A non-matching archive member preceding the match. -/
def samplePre : List (Except Unit ArchiveEntry) :=
  [.ok { path := "README.md", content := [.ok [1]] }]

/-- The matching tar member, under a directory prefix inside the archive. -/
def sampleMatch : ArchiveEntry := { path := "bin/sb", content := [.ok [7, 8, 9]] }

/-- Entries after the match; unreadable, to show they are never reached. -/
def samplePost : List (Except Unit ArchiveEntry) := [.error ()]

/-- The zip member bearing the Windows binary suffix. -/
def sampleZipMatch : ArchiveEntry := { path := "sb.exe", content := [.ok [4, 5]] }

/-- A file system holding only the downloaded archive. -/
def sampleArchiveFs : FS := [("/cache/sb-linux-x86_64.tar.gz", [1, 2, 3])]

/-- The uppercase rendering of an ASCII string: the spec's
case-insensitive comparison treats this as equal to the original. -/
def asciiUpper (s : String) : String :=
  String.mk (s.data.map (fun c =>
    if 97 ≤ c.toNat && c.toNat ≤ 122 then Char.ofNat (c.toNat - 32) else c))

/-! ### General lemmas about the embedded operations -/

theorem fsGet_fsRemove_ne (fs : FS) (p q : String) (h : p ≠ q) :
    fsGet (fsRemove fs p) q = fsGet fs q := by
  induction fs with
  | nil => rfl
  | cons e rest ih =>
    obtain ⟨r, v⟩ := e
    by_cases hr : r = p
    · subst hr
      simp [fsRemove, fsGet, h, ih]
    · simp [fsRemove, fsGet, hr, ih]

theorem fsGet_fsSet_self (fs : FS) (p : String) (v : Bytes) :
    fsGet (fsSet fs p v) p = some v := by
  simp [fsSet, fsGet]

theorem fsGet_fsSet_ne (fs : FS) (p q : String) (v : Bytes) (h : p ≠ q) :
    fsGet (fsSet fs p v) q = fsGet fs q := by
  simp only [fsSet, fsGet, if_neg h, fsGet_fsRemove_ne fs p q h]

theorem fsGet_fsRemove_self (fs : FS) (p : String) :
    fsGet (fsRemove fs p) p = none := by
  induction fs with
  | nil => rfl
  | cons e rest ih =>
    obtain ⟨r, v⟩ := e
    by_cases hr : r = p
    · simp [fsRemove, hr, ih]
    · simp [fsRemove, fsGet, hr, ih]

theorem fsExists_fsSet_mono (fs : FS) (p q : String) (v : Bytes)
    (h : fsExists fs q = true) : fsExists (fsSet fs p v) q = true := by
  by_cases hpq : p = q
  · subst hpq
    simp [fsExists, fsGet_fsSet_self]
  · rw [fsExists, fsGet_fsSet_ne fs p q v hpq]
    exact h

theorem resolveAsset_ok (release : GitHubRelease) (binary_name : String)
    (p : Platform) (a : GitHubAsset)
    (h : resolveAsset release binary_name p = .ok a) :
    a ∈ release.assets ∧ a.name = p.asset_name binary_name := by
  unfold resolveAsset at h
  cases hf : release.assets.find? (fun a => a.name == p.asset_name binary_name) with
  | none => rw [hf] at h; cases h
  | some b =>
    rw [hf] at h
    cases h
    refine ⟨List.mem_of_find?_eq_some hf, ?_⟩
    have := List.find?_some hf
    exact eq_of_beq this

theorem resolveAsset_none (release : GitHubRelease) (binary_name : String)
    (p : Platform)
    (h : ∀ a ∈ release.assets, a.name ≠ p.asset_name binary_name) :
    resolveAsset release binary_name p = .error .NoMatchingAsset := by
  unfold resolveAsset
  rw [List.find?_eq_none.mpr (fun a ha => by simpa using h a ha)]

theorem extractTar_skip (x : Except Unit ArchiveEntry)
    (rest : List (Except Unit ArchiveEntry)) (bn bp : String) (fs : FS)
    (h : tarSkip bn x = true) :
    extractTar (x :: rest) bn bp fs = extractTar rest bn bp fs := by
  cases x with
  | error u => simp [tarSkip] at h
  | ok a =>
    simp only [tarSkip, bne_iff_ne] at h
    simp [extractTar, h]

theorem extractTar_skipAll (entries : List (Except Unit ArchiveEntry))
    (bn bp : String) (fs : FS) (h : entries.all (tarSkip bn) = true) :
    extractTar entries bn bp fs = (.error .MemberNotFound, fs) := by
  induction entries with
  | nil => rfl
  | cons x rest ih =>
    rw [List.all_cons, Bool.and_eq_true] at h
    rw [extractTar_skip x rest bn bp fs h.1]
    exact ih h.2

theorem extractTar_first_match (pre post : List (Except Unit ArchiveEntry))
    (e : ArchiveEntry) (bn bp : String) (fs : FS)
    (hpre : pre.all (tarSkip bn) = true) (he : fileName e.path = some bn) :
    extractTar (pre ++ .ok e :: post) bn bp fs = copyEntryTo e.content bp fs := by
  induction pre with
  | nil => simp [extractTar, he]
  | cons x rest ih =>
    rw [List.all_cons, Bool.and_eq_true] at hpre
    rw [List.cons_append, extractTar_skip x _ bn bp fs hpre.1]
    exact ih hpre.2

theorem extractZip_skip (x : Except Unit ArchiveEntry)
    (rest : List (Except Unit ArchiveEntry)) (bn bne bp : String) (fs : FS)
    (h : zipSkip bn bne x = true) :
    extractZip (x :: rest) bn bne bp fs = extractZip rest bn bne bp fs := by
  cases x with
  | error u => simp [zipSkip] at h
  | ok a =>
    cases hf : fileName a.path with
    | none => simp [extractZip, hf]
    | some n =>
      simp only [zipSkip, hf, Bool.not_eq_true', Bool.or_eq_false_iff,
        beq_eq_false_iff_ne] at h
      simp [extractZip, hf, h.1, h.2]

theorem extractZip_skipAll (entries : List (Except Unit ArchiveEntry))
    (bn bne bp : String) (fs : FS) (h : entries.all (zipSkip bn bne) = true) :
    extractZip entries bn bne bp fs = (.error .MemberNotFound, fs) := by
  induction entries with
  | nil => rfl
  | cons x rest ih =>
    rw [List.all_cons, Bool.and_eq_true] at h
    rw [extractZip_skip x rest bn bne bp fs h.1]
    exact ih h.2

theorem extractZip_first_match (pre post : List (Except Unit ArchiveEntry))
    (e : ArchiveEntry) (n bn bne bp : String) (fs : FS)
    (hpre : pre.all (zipSkip bn bne) = true)
    (he : fileName e.path = some n) (hn : n = bne ∨ n = bn) :
    extractZip (pre ++ .ok e :: post) bn bne bp fs = copyEntryTo e.content bp fs := by
  induction pre with
  | nil => simp [extractZip, he, hn]
  | cons x rest ih =>
    rw [List.all_cons, Bool.and_eq_true] at hpre
    rw [List.cons_append, extractZip_skip x _ bn bne bp fs hpre.1]
    exact ih hpre.2

theorem copyEntryTo_snd (content : List (Except Unit Bytes)) (dest : String)
    (fs : FS) : ∃ w, (copyEntryTo content dest fs).2 = fsSet fs dest w := by
  unfold copyEntryTo
  cases drainChunks content [] <;> exact ⟨_, rfl⟩

theorem extractTar_snd (entries : List (Except Unit ArchiveEntry))
    (bn bp : String) (fs : FS) :
    (extractTar entries bn bp fs).2 = fs ∨
      ∃ w, (extractTar entries bn bp fs).2 = fsSet fs bp w := by
  induction entries with
  | nil => exact .inl rfl
  | cons x rest ih =>
    cases x with
    | error u => exact .inl rfl
    | ok a =>
      by_cases h : fileName a.path = some bn
      · simp only [extractTar, if_pos h]
        exact .inr (copyEntryTo_snd a.content bp fs)
      · simpa only [extractTar, if_neg h] using ih

theorem extractZip_snd (entries : List (Except Unit ArchiveEntry))
    (bn bne bp : String) (fs : FS) :
    (extractZip entries bn bne bp fs).2 = fs ∨
      ∃ w, (extractZip entries bn bne bp fs).2 = fsSet fs bp w := by
  induction entries with
  | nil => exact .inl rfl
  | cons x rest ih =>
    cases x with
    | error u => exact .inl rfl
    | ok a =>
      cases hf : fileName a.path with
      | none => simpa only [extractZip, hf] using ih
      | some n =>
        by_cases h : n = bne ∨ n = bn
        · simp only [extractZip, hf, if_pos h]
          exact .inr (copyEntryTo_snd a.content bp fs)
        · simpa only [extractZip, hf, if_neg h] using ih

theorem extractTar_error_ne_copyIo (entries : List (Except Unit ArchiveEntry))
    (bn bp : String) (fs : FS) (err : ExtractError) (fs' : FS)
    (h : extractTar entries bn bp fs = (.error err, fs')) (hio : err ≠ .CopyIo) :
    fs' = fs := by
  induction entries with
  | nil =>
    simp only [extractTar, Prod.mk.injEq] at h
    exact h.2.symm
  | cons x rest ih =>
    cases x with
    | error u =>
      simp only [extractTar, Prod.mk.injEq, Except.error.injEq] at h
      exact h.2.symm
    | ok a =>
      by_cases hm : fileName a.path = some bn
      · rw [extractTar, if_pos hm] at h
        unfold copyEntryTo at h
        cases hd : drainChunks a.content [] with
        | ok full => rw [hd] at h; cases h
        | error w =>
          rw [hd] at h
          simp only [Prod.mk.injEq, Except.error.injEq] at h
          exact absurd h.1.symm hio
      · rw [extractTar, if_neg hm] at h
        exact ih h

theorem extractZip_error_ne_copyIo (entries : List (Except Unit ArchiveEntry))
    (bn bne bp : String) (fs : FS) (err : ExtractError) (fs' : FS)
    (h : extractZip entries bn bne bp fs = (.error err, fs')) (hio : err ≠ .CopyIo) :
    fs' = fs := by
  induction entries with
  | nil =>
    simp only [extractZip, Prod.mk.injEq] at h
    exact h.2.symm
  | cons x rest ih =>
    cases x with
    | error u =>
      simp only [extractZip, Prod.mk.injEq, Except.error.injEq] at h
      exact h.2.symm
    | ok a =>
      cases hf : fileName a.path with
      | none =>
        rw [extractZip, hf] at h
        exact ih h
      | some n =>
        rw [extractZip, hf] at h
        have h' : (if n = bne ∨ n = bn then copyEntryTo a.content bp fs
            else extractZip rest bn bne bp fs) = (.error err, fs') := h
        by_cases hm : n = bne ∨ n = bn
        · rw [if_pos hm] at h'
          unfold copyEntryTo at h'
          cases hd : drainChunks a.content [] with
          | ok full => rw [hd] at h'; cases h'
          | error w =>
            rw [hd] at h'
            simp only [Prod.mk.injEq, Except.error.injEq] at h'
            exact absurd h'.1.symm hio
        · rw [if_neg hm] at h'
          exact ih h'

theorem get_latest_release_error_cases (latest : HttpOutcome GitHubRelease)
    (listR : Except Unit (List GitHubRelease)) (e : DownloadError) (n : Nat)
    (h : get_latest_release latest listR = (.error e, n)) :
    e = .Network ∨ e = .NoReleases := by
  unfold get_latest_release at h
  cases latest with
  | sendFail =>
    simp only [Prod.mk.injEq, Except.error.injEq] at h
    exact .inl h.1.symm
  | ok r => simp at h
  | notSuccess =>
    cases listR with
    | error u =>
      simp only [Prod.mk.injEq, Except.error.injEq] at h
      exact .inl h.1.symm
    | ok l =>
      cases l with
      | nil =>
        simp only [Prod.mk.injEq, Except.error.injEq] at h
        exact .inr h.1.symm
      | cons r rs => simp at h

theorem resolveAsset_error_shape (release : GitHubRelease) (binary_name : String)
    (p : Platform) (e : DownloadError)
    (h : resolveAsset release binary_name p = .error e) : e = .NoMatchingAsset := by
  unfold resolveAsset at h
  cases hf : release.assets.find? (fun a => a.name == p.asset_name binary_name) with
  | none =>
    rw [hf] at h
    cases h
    rfl
  | some b => rw [hf] at h; cases h

theorem download_asset_error_network (d : Downloader) (asset : GitHubAsset)
    (resp : Except Unit AssetResponse) (fs : FS) (e : DownloadError) (fs1 : FS)
    (h : d.download_asset asset resp fs = (.error e, fs1)) :
    e = .Network ∧
      (fs1 = fs ∨ ∃ w, fs1 = fsSet fs (pathJoin d.cache_dir asset.name) w) := by
  cases resp with
  | error u =>
    have h' : ((.error .Network : Except DownloadError String), fs) =
        ((.error e : Except DownloadError String), fs1) := h
    simp only [Prod.mk.injEq, Except.error.injEq] at h'
    exact ⟨h'.1.symm, .inl h'.2.symm⟩
  | ok r =>
    have h' : (match drainChunks r.chunks [] with
        | .ok full => ((.ok (pathJoin d.cache_dir asset.name) : Except DownloadError String),
            fsSet fs (pathJoin d.cache_dir asset.name) full)
        | .error written => (.error .Network,
            fsSet fs (pathJoin d.cache_dir asset.name) written)) =
        ((.error e : Except DownloadError String), fs1) := h
    cases hd : drainChunks r.chunks [] with
    | ok full => rw [hd] at h'; simp at h'
    | error w =>
      rw [hd] at h'
      simp only [Prod.mk.injEq, Except.error.injEq] at h'
      exact ⟨h'.1.symm, .inr ⟨w, h'.2.symm⟩⟩

theorem download_asset_ok_shape (d : Downloader) (asset : GitHubAsset)
    (resp : Except Unit AssetResponse) (fs : FS) (ap : String) (fs1 : FS)
    (h : d.download_asset asset resp fs = (.ok ap, fs1)) :
    ap = pathJoin d.cache_dir asset.name ∧ ∃ full, fs1 = fsSet fs ap full := by
  cases resp with
  | error u =>
    have h' : ((.error .Network : Except DownloadError String), fs) =
        ((.ok ap : Except DownloadError String), fs1) := h
    simp at h'
  | ok r =>
    have h' : (match drainChunks r.chunks [] with
        | .ok full => ((.ok (pathJoin d.cache_dir asset.name) : Except DownloadError String),
            fsSet fs (pathJoin d.cache_dir asset.name) full)
        | .error written => (.error .Network,
            fsSet fs (pathJoin d.cache_dir asset.name) written)) =
        ((.ok ap : Except DownloadError String), fs1) := h
    cases hd : drainChunks r.chunks [] with
    | ok full =>
      rw [hd] at h'
      simp only [Prod.mk.injEq, Except.ok.injEq] at h'
      exact ⟨h'.1.symm, full, h'.1 ▸ h'.2.symm⟩
    | error w => rw [hd] at h'; simp at h'

/-- Case anatomy of one `download_binary` call: a cache hit; a failure
before anything is written (release lookup or asset resolution); a
download failure (the partially-written archive may remain); an
extraction failure (the file system is whatever extraction left); or
success (archive written, member extracted, archive removed). -/
theorem download_binary_anatomy (d : Downloader) (bn : String) (p : Platform)
    (force : Bool) (fs : FS) (env : AcqEnv) :
    ((fsExists fs (d.binary_path bn p) && !force) = true ∧
       d.download_binary bn p force fs env =
         ⟨.ok (d.binary_path bn p), fs, 0⟩) ∨
    (∃ e n, (e = DownloadError.Network ∨ e = .NoReleases ∨ e = .NoMatchingAsset) ∧
       d.download_binary bn p force fs env = ⟨.error (.download e), fs, n⟩) ∨
    (∃ fs1 n,
       (fs1 = fs ∨
         ∃ w, fs1 = fsSet fs (pathJoin d.cache_dir (p.asset_name bn)) w) ∧
       d.download_binary bn p force fs env =
         ⟨.error (.download .Network), fs1, n⟩) ∨
    (∃ err full fs2 n,
       d.extract_binary (pathJoin d.cache_dir (p.asset_name bn)) bn p
           env.archiveEntries
           (fsSet fs (pathJoin d.cache_dir (p.asset_name bn)) full) =
         (.error err, fs2) ∧
       d.download_binary bn p force fs env = ⟨.error (.extract err), fs2, n⟩) ∨
    (∃ full fs2 n,
       d.extract_binary (pathJoin d.cache_dir (p.asset_name bn)) bn p
           env.archiveEntries
           (fsSet fs (pathJoin d.cache_dir (p.asset_name bn)) full) =
         (.ok (), fs2) ∧
       d.download_binary bn p force fs env =
         ⟨.ok (d.binary_path bn p),
          fsRemove fs2 (pathJoin d.cache_dir (p.asset_name bn)), n⟩) := by
  unfold Downloader.download_binary
  by_cases hit : (fsExists fs (d.binary_path bn p) && !force) = true
  · rw [if_pos hit]
    exact .inl ⟨hit, rfl⟩
  · rw [if_neg hit]
    split
    next e n hgl =>
      refine .inr (.inl ⟨e, n, ?_, rfl⟩)
      exact (get_latest_release_error_cases _ _ e n hgl).elim .inl (fun h => .inr (.inl h))
    next release n hgl =>
      split
      next e2 hra =>
        exact .inr (.inl ⟨e2, n, .inr (.inr (resolveAsset_error_shape _ _ _ _ hra)), rfl⟩)
      next asset hra =>
        have han : asset.name = p.asset_name bn := (resolveAsset_ok _ _ _ _ hra).2
        split
        next e3 fs1 hda =>
          obtain ⟨he3, hshape⟩ := download_asset_error_network _ _ _ _ _ _ hda
          subst he3
          exact .inr (.inr (.inl ⟨fs1, n + 1, by rw [← han]; exact hshape, rfl⟩))
        next ap fs1 hda =>
          obtain ⟨hap, full, hfs1⟩ := download_asset_ok_shape _ _ _ _ _ _ hda
          split
          next err fs2 hex =>
            refine .inr (.inr (.inr (.inl ⟨err, full, fs2, n + 1, ?_, rfl⟩)))
            rw [← han, ← hap, ← hfs1]
            exact hex
          next u fs2 hex =>
            cases u
            refine .inr (.inr (.inr (.inr ⟨full, fs2, n + 1, ?_, ?_⟩)))
            · rw [← han, ← hap, ← hfs1]
              exact hex
            · rw [← han, ← hap]

theorem extractCore_snd (ext ap bn bne bp : String)
    (entries : List (Except Unit ArchiveEntry)) (fs : FS) :
    (extractCore ext ap bn bne bp entries fs).2 = fs ∨
      ∃ w, (extractCore ext ap bn bne bp entries fs).2 = fsSet fs bp w := by
  unfold extractCore
  by_cases h1 : ext = ".tar.gz"
  · rw [if_pos h1]
    by_cases h2 : fsExists fs ap = true
    · rw [if_pos h2]
      exact extractTar_snd entries bn bp fs
    · rw [if_neg h2]
      exact .inl rfl
  · rw [if_neg h1]
    by_cases h2 : ext = ".zip"
    · rw [if_pos h2]
      by_cases h3 : fsExists fs ap = true
      · rw [if_pos h3]
        exact extractZip_snd entries bn bne bp fs
      · rw [if_neg h3]
        exact .inl rfl
    · rw [if_neg h2]
      exact .inl rfl

theorem extractCore_error_ne_copyIo (ext ap bn bne bp : String)
    (entries : List (Except Unit ArchiveEntry)) (fs : FS)
    (err : ExtractError) (fs' : FS)
    (h : extractCore ext ap bn bne bp entries fs = (.error err, fs'))
    (hio : err ≠ .CopyIo) : fs' = fs := by
  unfold extractCore at h
  by_cases h1 : ext = ".tar.gz"
  · rw [if_pos h1] at h
    by_cases h2 : fsExists fs ap = true
    · rw [if_pos h2] at h
      exact extractTar_error_ne_copyIo _ _ _ _ _ _ h hio
    · rw [if_neg h2] at h
      simp only [Prod.mk.injEq, Except.error.injEq] at h
      exact h.2.symm
  · rw [if_neg h1] at h
    by_cases h2 : ext = ".zip"
    · rw [if_pos h2] at h
      by_cases h3 : fsExists fs ap = true
      · rw [if_pos h3] at h
        exact extractZip_error_ne_copyIo _ _ _ _ _ _ _ h hio
      · rw [if_neg h3] at h
        simp only [Prod.mk.injEq, Except.error.injEq] at h
        exact h.2.symm
    · rw [if_neg h2] at h
      simp only [Prod.mk.injEq, Except.error.injEq] at h
      exact h.2.symm

theorem hexDigit_mem (n : Nat) : hexDigit n ∈ hexChars := by
  by_cases h : n < 16
  · interval_cases n <;> decide
  · unfold hexDigit
    rw [List.getD_eq_default]
    · decide
    · have hlen : hexChars.length = 16 := rfl
      omega

theorem hexFold_mem (bs : Bytes) :
    ∀ c ∈ bs.foldr (fun b acc => hexDigit (b / 16) :: hexDigit (b % 16) :: acc) [],
      c ∈ hexChars := by
  induction bs with
  | nil => simp
  | cons b rest ih =>
    intro c hc
    simp only [List.foldr_cons, List.mem_cons] at hc
    rcases hc with rfl | rfl | hc
    · exact hexDigit_mem _
    · exact hexDigit_mem _
    · exact ih c hc

theorem hexEncode_mem_hexChars (bs : Bytes) :
    ∀ c ∈ (hexEncode bs).data, c ∈ hexChars :=
  fun c hc => hexFold_mem bs c hc

/-! ### Claim theorems -/

/-- C3: when `force` is `false` and the cached binary file already exists,
`download_binary` returns the cache path immediately with zero network
requests and an unchanged file system; two calls in immediate succession
then return the same path both times, and the second call also issues
zero network requests. -/
theorem download_binary_cache_hit_idempotent (d : Downloader) (bn : String)
    (p : Platform) (fs : FS) (env env2 : AcqEnv)
    (h : fsExists fs (d.binary_path bn p) = true) :
    d.download_binary bn p false fs env =
      ⟨.ok (d.binary_path bn p), fs, 0⟩ ∧
    d.download_binary bn p false
        (d.download_binary bn p false fs env).fs env2 =
      ⟨.ok (d.binary_path bn p), fs, 0⟩ := by
  have key : ∀ env' : AcqEnv, d.download_binary bn p false fs env' =
      ⟨.ok (d.binary_path bn p), fs, 0⟩ := by
    intro env'
    unfold Downloader.download_binary
    rw [if_pos (by rw [h]; rfl)]
  refine ⟨key env, ?_⟩
  rw [key env]
  exact key env2

/-- Witness for C3: a cache that already holds `/cache/sb`. -/
theorem download_binary_cache_hit_idempotent_witness :
    fsExists cachedFs (sampleDownloader.binary_path "sb" linuxPlatform) = true ∧
    sampleDownloader.download_binary "sb" linuxPlatform false cachedFs sampleEnv =
      ⟨.ok (sampleDownloader.binary_path "sb" linuxPlatform), cachedFs, 0⟩ :=
  ⟨by decide,
   (download_binary_cache_hit_idempotent sampleDownloader "sb" linuxPlatform
     cachedFs sampleEnv sampleEnv (by decide)).1⟩

/-- C7: asset resolution selects an asset exactly when its filename equals
`platform.asset_name(toolName)` — any selected asset is in the release's
asset list and bears exactly that name — and fails with `NoMatchingAsset`
precisely when no asset in the list has that filename. -/
theorem resolveAsset_selects_matching_name (release : GitHubRelease)
    (binary_name : String) (p : Platform) :
    (∀ a, resolveAsset release binary_name p = .ok a →
      a ∈ release.assets ∧ a.name = p.asset_name binary_name) ∧
    (resolveAsset release binary_name p = .error .NoMatchingAsset ↔
      ∀ a ∈ release.assets, a.name ≠ p.asset_name binary_name) := by
  refine ⟨fun a h => resolveAsset_ok _ _ _ _ h, ?_, fun h => resolveAsset_none _ _ _ h⟩
  intro h a ha hname
  unfold resolveAsset at h
  cases hf : release.assets.find? (fun x => x.name == p.asset_name binary_name) with
  | some b => rw [hf] at h; cases h
  | none =>
    have hmem := List.find?_eq_none.mp hf a ha
    simp [hname] at hmem

/-- Witness for C7: the sample release resolves `sb` on linux/x86_64 to
its only asset. -/
theorem resolveAsset_selects_matching_name_witness :
    sampleAsset ∈ sampleRelease.assets ∧
      sampleAsset.name = linuxPlatform.asset_name "sb" :=
  (resolveAsset_selects_matching_name sampleRelease "sb" linuxPlatform).1
    sampleAsset (by decide)

/-- C8: `run_interactive` fails with `BinaryNotFound` iff the path does
not exist; when the path exists and the child runs to completion, the
call returns success whatever the exit status, and the warning is emitted
exactly for an exit code other than 0 and other than 130 (the
SIGINT-equivalent). -/
theorem run_interactive_exit_semantics (pathExists : Bool) (path : String)
    (args : List String) (status : ExitStatus) :
    ((run_interactive pathExists path args (.ok status)).result =
        .error (.BinaryNotFound path) ↔ pathExists = false) ∧
    (pathExists = true →
      (run_interactive pathExists path args (.ok status)).result = .ok () ∧
      ((run_interactive pathExists path args (.ok status)).warned = true ↔
        ∃ c, status.code = some c ∧ c ≠ 0 ∧ c ≠ 130)) := by
  cases pathExists
  · simp [run_interactive]
  · obtain ⟨code⟩ := status
    refine ⟨by simp [run_interactive], fun _ => ⟨rfl, ?_⟩⟩
    cases code with
    | none => simp [run_interactive, ExitStatus.success]
    | some c =>
      by_cases h0 : c = 0
      · subst h0
        simp [run_interactive, ExitStatus.success]
      · simp [run_interactive, ExitStatus.success, h0]

/-- Witness for C8: an existing path whose child exits with code 5
returns success and logs the warning. -/
theorem run_interactive_exit_semantics_witness :
    (run_interactive true "/cache/sb" [] (.ok ⟨some 5⟩)).result = .ok () ∧
    (run_interactive true "/cache/sb" [] (.ok ⟨some 5⟩)).warned = true :=
  ⟨((run_interactive_exit_semantics true "/cache/sb" [] ⟨some 5⟩).2 rfl).1,
   ((run_interactive_exit_semantics true "/cache/sb" [] ⟨some 5⟩).2 rfl).2.mpr
     ⟨5, rfl, by decide, by decide⟩⟩

/-- C10: `update_from_cli` can only switch `auto_update_check` off (when
`no_update_check` is set) and `use_system_binaries` on (when `use_system`
is set); with a flag unset the corresponding field keeps its prior
value, and `github`, `cache`, and `prefer_local_build` are unchanged in
every case. -/
theorem update_from_cli_frame (c : Config) (no_update_check use_system : Bool) :
    (c.update_from_cli no_update_check use_system).behavior.auto_update_check =
      (if no_update_check then false else c.behavior.auto_update_check) ∧
    (c.update_from_cli no_update_check use_system).behavior.use_system_binaries =
      (if use_system then true else c.behavior.use_system_binaries) ∧
    (c.update_from_cli no_update_check use_system).github = c.github ∧
    (c.update_from_cli no_update_check use_system).cache = c.cache ∧
    (c.update_from_cli no_update_check use_system).behavior.prefer_local_build =
      c.behavior.prefer_local_build := by
  cases no_update_check <;> cases use_system <;> simp [Config.update_from_cli]

/-- C6: on a gzip-compressed tar the first entry whose base filename
equals the member name is copied to the destination — the result does not
depend on the entries after the match, so no further entry is read; on a
zip each entry's base filename is matched against the member name with
the platform binary suffix appended or the plain member name, and the
first match is copied; exhausting the entries fails with `MemberNotFound`
in both formats; any other format tag fails with
`UnsupportedArchiveFormat`; and `extract_binary` is exactly this dispatch
on `platform.archive_extension()` targeting the final cache path. -/
theorem extract_binary_member_selection
    (pre post entries : List (Except Unit ArchiveEntry)) (e : ArchiveEntry)
    (n bn bne bp ap ext : String) (fs : FS) (d : Downloader) (p : Platform) :
    (fsExists fs ap = true → pre.all (tarSkip bn) = true →
      fileName e.path = some bn →
      extractCore ".tar.gz" ap bn bne bp (pre ++ .ok e :: post) fs =
        copyEntryTo e.content bp fs) ∧
    (fsExists fs ap = true → entries.all (tarSkip bn) = true →
      extractCore ".tar.gz" ap bn bne bp entries fs =
        (.error .MemberNotFound, fs)) ∧
    (fsExists fs ap = true → pre.all (zipSkip bn bne) = true →
      fileName e.path = some n → (n = bne ∨ n = bn) →
      extractCore ".zip" ap bn bne bp (pre ++ .ok e :: post) fs =
        copyEntryTo e.content bp fs) ∧
    (fsExists fs ap = true → entries.all (zipSkip bn bne) = true →
      extractCore ".zip" ap bn bne bp entries fs =
        (.error .MemberNotFound, fs)) ∧
    (ext ≠ ".tar.gz" → ext ≠ ".zip" →
      extractCore ext ap bn bne bp entries fs =
        (.error .UnsupportedArchiveFormat, fs)) ∧
    (d.extract_binary ap bn p entries fs =
      extractCore p.archive_extension ap bn (bn ++ p.binary_extension)
        (d.binary_path bn p) entries fs) := by
  refine ⟨?_, ?_, ?_, ?_, ?_, rfl⟩
  · intro hfs hpre he
    unfold extractCore
    rw [if_pos rfl, if_pos hfs]
    exact extractTar_first_match pre post e bn bp fs hpre he
  · intro hfs hall
    unfold extractCore
    rw [if_pos rfl, if_pos hfs]
    exact extractTar_skipAll entries bn bp fs hall
  · intro hfs hpre he hn
    unfold extractCore
    rw [if_neg (by decide), if_pos rfl, if_pos hfs]
    exact extractZip_first_match pre post e n bn bne bp fs hpre he hn
  · intro hfs hall
    unfold extractCore
    rw [if_neg (by decide), if_pos rfl, if_pos hfs]
    exact extractZip_skipAll entries bn bne bp fs hall
  · intro h1 h2
    unfold extractCore
    rw [if_neg h1, if_neg h2]

/-- Witness for C6: a tar whose second entry `bin/sb` matches (the
unreadable third entry is never reached), a zip matching on the `.exe`
suffix, and a `.rar` tag rejected. -/
theorem extract_binary_member_selection_witness :
    extractCore ".tar.gz" "/cache/sb-linux-x86_64.tar.gz" "sb" "sb.exe"
        "/cache/sb" (samplePre ++ .ok sampleMatch :: samplePost) sampleArchiveFs =
      copyEntryTo sampleMatch.content "/cache/sb" sampleArchiveFs ∧
    extractCore ".zip" "/cache/sb-linux-x86_64.tar.gz" "sb" "sb.exe"
        "/cache/sb" (samplePre ++ .ok sampleZipMatch :: samplePost) sampleArchiveFs =
      copyEntryTo sampleZipMatch.content "/cache/sb" sampleArchiveFs ∧
    extractCore ".rar" "/cache/sb-linux-x86_64.tar.gz" "sb" "sb.exe"
        "/cache/sb" samplePre sampleArchiveFs =
      (.error .UnsupportedArchiveFormat, sampleArchiveFs) :=
  ⟨(extract_binary_member_selection samplePre samplePost samplePre sampleMatch
      "sb.exe" "sb" "sb.exe" "/cache/sb" "/cache/sb-linux-x86_64.tar.gz" ".rar"
      sampleArchiveFs sampleDownloader linuxPlatform).1
      (by decide) (by decide) (by decide),
   (extract_binary_member_selection samplePre samplePost samplePre sampleZipMatch
      "sb.exe" "sb" "sb.exe" "/cache/sb" "/cache/sb-linux-x86_64.tar.gz" ".rar"
      sampleArchiveFs sampleDownloader linuxPlatform).2.2.1
      (by decide) (by decide) (by decide) (by decide),
   (extract_binary_member_selection samplePre samplePost samplePre sampleMatch
      "sb.exe" "sb" "sb.exe" "/cache/sb" "/cache/sb-linux-x86_64.tar.gz" ".rar"
      sampleArchiveFs sampleDownloader linuxPlatform).2.2.2.2.1
      (by decide) (by decide)⟩

/-- C1 counterexample: a forced refresh over a good cached binary whose
matched member fails on its first read — the acquisition fails after the
download began, yet the final cache path now holds an empty
partially-written file: the previous good entry is not untouched, and an
entry does exist at that path. -/
theorem download_binary_not_atomic_counterexample :
    (sampleDownloader.download_binary "sb" linuxPlatform true cachedFs
        corruptCopyEnv).result = .error (.extract .CopyIo) ∧
    fsGet (sampleDownloader.download_binary "sb" linuxPlatform true cachedFs
        corruptCopyEnv).fs "/cache/sb" = some [] ∧
    fsGet cachedFs "/cache/sb" = some [9, 9, 9] ∧
    fsExists (sampleDownloader.download_binary "sb" linuxPlatform true cachedFs
        corruptCopyEnv).fs "/cache/sb" = true := by decide

/-- C1 amended: a failure at any stage other than an I/O failure during
the member copy itself — release lookup, asset resolution, download,
archive open, entry-header read, member not found, unsupported format —
leaves the final cache path exactly as it was; but extraction
truncate-creates the final cache path directly — there is no
temporary-name-and-rename step — so an I/O failure while copying the
matched member leaves a partially-written file visible at the final
path, as the counterexample shows. -/
theorem download_binary_failure_frame (d : Downloader) (bn : String)
    (p : Platform) (force : Bool) (fs : FS) (env : AcqEnv) (e : AcqError)
    (hpath : pathJoin d.cache_dir (p.asset_name bn) ≠ d.binary_path bn p)
    (h : (d.download_binary bn p force fs env).result = .error e)
    (hio : e ≠ .extract .CopyIo) :
    fsGet (d.download_binary bn p force fs env).fs (d.binary_path bn p) =
      fsGet fs (d.binary_path bn p) := by
  rcases download_binary_anatomy d bn p force fs env with
    ⟨_, ho⟩ | ⟨e', nr, _, ho⟩ | ⟨fs1, nr, hshape, ho⟩ |
    ⟨err, full, fs2, nr, hex, ho⟩ | ⟨full, fs2, nr, _, ho⟩
  · rw [ho] at h
    exact absurd h (by simp)
  · rw [ho]
  · rw [ho]
    rcases hshape with rfl | ⟨w, rfl⟩
    · rfl
    · exact fsGet_fsSet_ne _ _ _ _ hpath
  · rw [ho] at h ⊢
    have he : Except.error (AcqError.extract err) =
        (.error e : Except AcqError String) := h
    have herr : err ≠ ExtractError.CopyIo := by
      intro hc
      subst hc
      cases he
      exact hio rfl
    have hfs2 : fs2 = fsSet fs (pathJoin d.cache_dir (p.asset_name bn)) full :=
      extractCore_error_ne_copyIo _ _ _ _ _ _ _ _ _ hex herr
    rw [show (⟨.error (.extract err), fs2, nr⟩ : DlOutcome).fs = fs2 from rfl, hfs2]
    exact fsGet_fsSet_ne _ _ _ _ hpath
  · rw [ho] at h
    exact absurd h (by simp)

/-- Witness for C1 amended: on a forced refresh over a good cached
binary, both an unreadable first entry header (an extraction I/O failure
before any member copy) and a member-not-found failure leave the cached
binary untouched. -/
theorem download_binary_failure_frame_witness :
    (sampleDownloader.download_binary "sb" linuxPlatform true cachedFs
        corruptHeaderEnv).result = .error (.extract .ReadIo) ∧
    fsGet (sampleDownloader.download_binary "sb" linuxPlatform true cachedFs
        corruptHeaderEnv).fs (sampleDownloader.binary_path "sb" linuxPlatform) =
      fsGet cachedFs (sampleDownloader.binary_path "sb" linuxPlatform) ∧
    (sampleDownloader.download_binary "sb" linuxPlatform true cachedFs
        missingMemberEnv).result = .error (.extract .MemberNotFound) ∧
    fsGet (sampleDownloader.download_binary "sb" linuxPlatform true cachedFs
        missingMemberEnv).fs (sampleDownloader.binary_path "sb" linuxPlatform) =
      fsGet cachedFs (sampleDownloader.binary_path "sb" linuxPlatform) :=
  ⟨by decide,
   download_binary_failure_frame sampleDownloader "sb" linuxPlatform true
     cachedFs corruptHeaderEnv (.extract .ReadIo)
     (by decide) (by decide) (by decide),
   by decide,
   download_binary_failure_frame sampleDownloader "sb" linuxPlatform true
     cachedFs missingMemberEnv (.extract .MemberNotFound)
     (by decide) (by decide) (by decide)⟩

/-- C2 counterexample: an acquisition whose downloaded bytes hash to a
digest different from a supplied expected value still succeeds and
installs the binary at the final cache path — the pipeline never fails
with `ChecksumMismatch`. -/
theorem checksum_never_verified_counterexample :
    (hexEncode (sha256 [1, 2, 3]) ==
      "0000000000000000000000000000000000000000000000000000000000000000") =
      false ∧
    (sampleDownloader.download_binary "sb" linuxPlatform false []
        sampleEnv).result = .ok "/cache/sb" ∧
    fsGet (sampleDownloader.download_binary "sb" linuxPlatform false []
        sampleEnv).fs "/cache/sb" = some [7, 8, 9] := by decide

/-- C2 amended: the acquisition pipeline performs no checksum
verification — `verify_checksum` is never invoked by `download_binary`,
so no acquisition ever fails with `ChecksumMismatch`, whatever the
downloaded bytes hash to. -/
theorem download_binary_never_checksum_mismatch (d : Downloader)
    (bn : String) (p : Platform) (force : Bool) (fs : FS) (env : AcqEnv) :
    isChecksumMismatch (d.download_binary bn p force fs env).result = false := by
  rcases download_binary_anatomy d bn p force fs env with
    ⟨_, ho⟩ | ⟨e, nr, he, ho⟩ | ⟨fs1, nr, _, ho⟩ |
    ⟨err, full, fs2, nr, _, ho⟩ | ⟨full, fs2, nr, _, ho⟩
  · rw [ho]
    rfl
  · rw [ho]
    rcases he with rfl | rfl | rfl <;> rfl
  · rw [ho]
    rfl
  · rw [ho]
    rfl
  · rw [ho]
    rfl

/-- C4 counterexample: when extraction fails (member not found), the
downloaded archive file is not removed — it remains in the cache
directory, contradicting removal in both outcomes. -/
theorem archive_cleanup_counterexample :
    (sampleDownloader.download_binary "sb" linuxPlatform false []
        missingMemberEnv).result = .error (.extract .MemberNotFound) ∧
    fsGet (sampleDownloader.download_binary "sb" linuxPlatform false []
        missingMemberEnv).fs "/cache/sb-linux-x86_64.tar.gz" =
      some [1, 2, 3] := by decide

/-- C4 amended: the temporary archive file is removed when extraction
succeeds; when extraction fails the `?` operator propagates the error
before the cleanup call runs, so the archive file remains on disk. -/
theorem archive_removed_only_on_success (d : Downloader) (bn : String)
    (p : Platform) (force : Bool) (fs : FS) (env : AcqEnv) :
    ((fsExists fs (d.binary_path bn p) && !force) = false →
      ∀ q, (d.download_binary bn p force fs env).result = .ok q →
        fsGet (d.download_binary bn p force fs env).fs
          (pathJoin d.cache_dir (p.asset_name bn)) = none) ∧
    (∀ err, (d.download_binary bn p force fs env).result =
        .error (.extract err) →
      fsExists (d.download_binary bn p force fs env).fs
        (pathJoin d.cache_dir (p.asset_name bn)) = true) := by
  rcases download_binary_anatomy d bn p force fs env with
    ⟨hit, ho⟩ | ⟨e, nr, he, ho⟩ | ⟨fs1, nr, _, ho⟩ |
    ⟨err, full, fs2, nr, hex, ho⟩ | ⟨full, fs2, nr, hex, ho⟩
  · constructor
    · intro hcond q hq
      rw [hit] at hcond
      cases hcond
    · intro err hq
      rw [ho] at hq
      exact absurd hq (by simp)
  · constructor
    · intro hcond q hq
      rw [ho] at hq
      exact absurd hq (by simp)
    · intro err hq
      rw [ho] at hq
      have hq' : (Except.error (AcqError.download e) : Except AcqError String) =
          .error (.extract err) := hq
      cases hq'
  · constructor
    · intro hcond q hq
      rw [ho] at hq
      exact absurd hq (by simp)
    · intro err hq
      rw [ho] at hq
      have hq' : (Except.error (AcqError.download .Network) :
          Except AcqError String) = .error (.extract err) := hq
      cases hq'
  · constructor
    · intro hcond q hq
      rw [ho] at hq
      exact absurd hq (by simp)
    · intro err2 hq
      rw [ho]
      have hsnd : fs2 = fsSet fs (pathJoin d.cache_dir (p.asset_name bn)) full ∨
          ∃ w, fs2 = fsSet (fsSet fs (pathJoin d.cache_dir (p.asset_name bn)) full)
            (d.binary_path bn p) w := by
        have := extractCore_snd p.archive_extension
          (pathJoin d.cache_dir (p.asset_name bn)) bn (bn ++ p.binary_extension)
          (d.binary_path bn p) env.archiveEntries
          (fsSet fs (pathJoin d.cache_dir (p.asset_name bn)) full)
        rw [show extractCore p.archive_extension
            (pathJoin d.cache_dir (p.asset_name bn)) bn (bn ++ p.binary_extension)
            (d.binary_path bn p) env.archiveEntries
            (fsSet fs (pathJoin d.cache_dir (p.asset_name bn)) full) =
            (Except.error err, fs2) from hex] at this
        exact this
      rcases hsnd with rfl | ⟨w, rfl⟩
      · simp [fsExists, fsGet_fsSet_self]
      · exact fsExists_fsSet_mono _ _ _ _ (by simp [fsExists, fsGet_fsSet_self])
  · constructor
    · intro hcond q hq
      rw [ho]
      exact fsGet_fsRemove_self fs2 _
    · intro err hq
      rw [ho] at hq
      exact absurd hq (by simp)

/-- Witness for C4 amended: a successful acquisition removes the archive;
a failed extraction leaves it present. -/
theorem archive_removed_only_on_success_witness :
    (fsExists ([] : FS) (sampleDownloader.binary_path "sb" linuxPlatform) &&
        !false) = false ∧
    (sampleDownloader.download_binary "sb" linuxPlatform false []
        sampleEnv).result = .ok "/cache/sb" ∧
    fsGet (sampleDownloader.download_binary "sb" linuxPlatform false []
        sampleEnv).fs
      (pathJoin sampleDownloader.cache_dir (linuxPlatform.asset_name "sb")) =
      none ∧
    fsExists (sampleDownloader.download_binary "sb" linuxPlatform false []
        missingMemberEnv).fs
      (pathJoin sampleDownloader.cache_dir (linuxPlatform.asset_name "sb")) =
      true :=
  ⟨by decide, by decide,
   (archive_removed_only_on_success sampleDownloader "sb" linuxPlatform false []
      sampleEnv).1 (by decide) "/cache/sb" (by decide),
   (archive_removed_only_on_success sampleDownloader "sb" linuxPlatform false []
      missingMemberEnv).2 .MemberNotFound (by decide)⟩

/-- C5 counterexample: the uppercase rendering of the correct digest of a
file fails verification — the comparison in `verify_checksum` is
case-sensitive, not case-insensitive. -/
theorem verify_checksum_case_counterexample :
    asciiUpper (hexEncode (sha256 [97, 98, 99])) =
      "BA7816BF8F01CFEA414140DE5DAE2223B00361A396177A9CB410FF61F20015AD" ∧
    verify_checksum [("/tmp/f", [97, 98, 99])] "/tmp/f"
      "BA7816BF8F01CFEA414140DE5DAE2223B00361A396177A9CB410FF61F20015AD" =
      .ok false := by decide

/-- C5 amended: the digest is the lowercase hexadecimal SHA-256 of the
file's full contents (every output character is a lowercase hexadecimal
digit), and `verify` returns true iff the computed digest equals
`expectedHex` exactly — the comparison is case-sensitive, so an uppercase
rendering of the correct digest verifies as false. -/
theorem verify_checksum_exact_lowercase (fs : FS) (path expected : String)
    (bytes : Bytes) (h : fsGet fs path = some bytes) :
    (verify_checksum fs path expected = .ok true ↔
      hexEncode (sha256 bytes) = expected) ∧
    (∀ c ∈ (hexEncode (sha256 bytes)).data, c ∈ hexChars) := by
  refine ⟨?_, hexEncode_mem_hexChars (sha256 bytes)⟩
  unfold verify_checksum
  rw [h]
  show Except.ok (hexEncode (sha256 bytes) == expected) =
      (.ok true : Except Unit Bool) ↔ hexEncode (sha256 bytes) = expected
  constructor
  · intro hv
    have hb : (hexEncode (sha256 bytes) == expected) = true := by
      injection hv
    exact eq_of_beq hb
  · intro he
    rw [he]
    simp

/-- Witness for C5 amended: the digest of the bytes of `abc` verifies
against its own lowercase rendering. -/
theorem verify_checksum_exact_lowercase_witness :
    fsGet [("/tmp/f", [97, 98, 99])] "/tmp/f" = some [97, 98, 99] ∧
    verify_checksum [("/tmp/f", [97, 98, 99])] "/tmp/f"
      "ba7816bf8f01cfea414140de5dae2223b00361a396177a9cb410ff61f20015ad" =
      .ok true :=
  ⟨by decide,
   ((verify_checksum_exact_lowercase [("/tmp/f", [97, 98, 99])] "/tmp/f"
      "ba7816bf8f01cfea414140de5dae2223b00361a396177a9cb410ff61f20015ad"
      [97, 98, 99] (by decide)).1).mpr (by decide)⟩

/-- C9 counterexample: with the settings override `cache.directory`
set to `/custom`, `Config::cache_dir` resolves to `/custom` but
`Downloader::new` still places its cache root under the implicit default
directory — the Downloader does not use the override. -/
theorem cache_override_ignored_counterexample :
    Config.cache_dir overrideConfig sampleDirs = .ok "/custom" ∧
    Downloader.new "dirvine" "saorsa-cli" sampleDirs =
      .ok { repo_owner := "dirvine", repo_name := "saorsa-cli",
            cache_dir := "/home/user/.cache/saorsa-cli/binaries" } ∧
    ("/home/user/.cache/saorsa-cli/binaries" == "/custom") = false := by
  decide

/-- C9 amended: `Config::cache_dir` prefers the `cache.directory`
override when it is set, but `Downloader::new` always derives its cache
root from the platform default cache directory and never consults the
settings, so binaries and transient archives are placed under the
default root even when the override is set. -/
theorem cache_root_resolution (c : Config) (env : DirsEnv)
    (dir cd owner repo : String)
    (hdir : c.cache.directory = some dir) (hcd : env.cacheDir = some cd) :
    Config.cache_dir c env = .ok dir ∧
    Downloader.new owner repo env =
      .ok { repo_owner := owner, repo_name := repo,
            cache_dir := pathJoin (pathJoin cd "saorsa-cli") "binaries" } := by
  constructor
  · unfold Config.cache_dir
    rw [hdir]
  · unfold Downloader.new
    rw [hcd]

/-- Witness for C9 amended at the concrete override configuration. -/
theorem cache_root_resolution_witness :
    overrideConfig.cache.directory = some "/custom" ∧
    sampleDirs.cacheDir = some "/home/user/.cache" ∧
    Config.cache_dir overrideConfig sampleDirs = .ok "/custom" :=
  ⟨by decide, by decide,
   (cache_root_resolution overrideConfig sampleDirs "/custom"
      "/home/user/.cache" "dirvine" "saorsa-cli" (by decide) (by decide)).1⟩

end Saorsa
